import Mathlib

/-!
# gh-review

A shallow embedding of `gh-review.js`, the command line tool that lists the
repositories of a GitHub organisation, clones each one, probes the checkout for
a README, a LICENSE, a CONTRIBUTING file and a Travis configuration, optionally
files issues for what is missing, and prints a table sorted by score.

Conventions of the embedding:

* JavaScript values that the program only tests for truthiness are modelled by
  `Option String` (an option value of the command line, `undefined` when the
  option is absent) or by `Bool` (flags, probe results, `repo.private`).
* Callback-passing functions become functions returning what is handed to the
  callback.  A synchronous exception is the `error` case of `Except`.
* The effects of a run that the properties below talk about (messages on
  standard error, `process.exit`, `fs.remove`, issue creation, the printed
  table) are recorded as a list of `Event`s.
* Library functions (`async.*`, `Array.prototype.sort`, `colors`) are modelled
  by small list functions; `line-count` and `fs.readFileSync` are parameters.
-/

namespace GhReview

/-! ## Command line and credentials -/

/-- The constant `ASYNC_LIMIT`. -/
def ASYNC_LIMIT : Nat := 10

/-- The parsed command line, `program`.  A value option is `none` when the option was
not given (`undefined` in the source), a boolean option is `false` when not given. -/
structure Program where
  username : Option String
  password : Option String
  oauth : Option String
  createIssues : Bool
  publicOnly : Bool
  args : List String
deriving DecidableEq, Repr

/-- JavaScript truthiness of a value that is `undefined` or a string: `undefined` and
the empty string are falsy, every other string is truthy. -/
def truthy : Option String → Bool
  | none => false
  | some s => s != ""

/-- The condition of the `if` at the top of the script that guards `program.help()`:
when it is `true` the help text is printed and the process ends there. -/
def usageViolation (program : Program) : Bool :=
  (!truthy program.username && truthy program.password)
    || (truthy program.username && !truthy program.password)
    || program.args.length != 1
    || (program.createIssues
        && !((truthy program.username && truthy program.password) || truthy program.oauth))

/-- The three shapes the object `auth` can have. -/
inductive Auth where
  /-- The initial `{}`. -/
  | empty
  /-- The object with `token`, `auth: "oauth"`, `type: "oauth"`. -/
  | oauth (token : String)
  /-- The object with `username`, `password`, `auth: "basic"`, `type: "basic"`. -/
  | basic (username password : String)
deriving DecidableEq, Repr

/-- The value of the variable `auth` after the two `if` statements that follow its
declaration: the second assignment overwrites the first. -/
def auth (program : Program) : Auth :=
  let a0 := Auth.empty
  let a1 := if truthy program.oauth then Auth.oauth (program.oauth.getD "") else a0
  let a2 :=
    if truthy program.username && truthy program.password then
      Auth.basic (program.username.getD "") (program.password.getD "")
    else a1
  a2

/-- What the clone credential callback can return. -/
inductive Cred where
  /-- The result of `Git.Cred.userpassPlaintextNew(username, password)`. -/
  | userpassPlaintextNew (username : String) (password : Option String)
  /-- The result of `Git.Cred.sshKeyFromAgent(username)`. -/
  | sshKeyFromAgent (username : String)
deriving DecidableEq, Repr

/-- The callback `cloneOptions.fetchOpts.callbacks.credentials`. -/
def credentials (program : Program) (_url userName : String) : Cred :=
  if truthy program.oauth then
    Cred.userpassPlaintextNew userName program.oauth
  else if truthy program.username then
    Cred.userpassPlaintextNew (program.username.getD "") program.password
  else
    Cred.sshKeyFromAgent userName

/-! ## Repository records -/

/-- The `owner` object of a repository record. -/
structure Owner where
  login : String
deriving DecidableEq, Repr

/-- A repository record as delivered by `user.orgRepos`, restricted to the fields the
program reads. -/
structure Repo where
  id : Nat
  name : String
  full_name : String
  owner : Owner
  «private» : Bool
  clone_url : String
deriving DecidableEq, Repr

/-- The object `status` that `async.parallelLimit` hands to its final callback. -/
structure Status where
  readme : Bool
  license : Bool
  contributing : Bool
  travis : Bool
deriving DecidableEq, Repr

/-- A record after `_.extend(repo, status, {checkout_location: repoLocation})`. -/
structure ProbedRepo extends Repo, Status where
  checkout_location : String
deriving DecidableEq, Repr

/-- A record after `calculateScore`. -/
structure ScoredRepo extends ProbedRepo where
  score : Nat
deriving DecidableEq, Repr

/-! ## The `async` helpers, for synchronous iterators -/

/-- The function `async.filterLimit` with an iterator that answers at once: the elements
the iterator accepts, in their original order. -/
def filterLimit {α : Type} (arr : List α) (_limit : Nat) (iterator : α → Bool) : List α :=
  match arr with
  | [] => []
  | x :: rest =>
    if iterator x then x :: filterLimit rest _limit iterator
    else filterLimit rest _limit iterator

/-- The function `async.mapLimit` with an iterator that answers at once and never
reports an error: the results, in the order of the inputs. -/
def mapLimit {α β : Type} (arr : List α) (_limit : Nat) (iterator : α → β) : List β :=
  match arr with
  | [] => []
  | x :: rest => iterator x :: mapLimit rest _limit iterator

/-- The function `async.someLimit` with an iterator that answers at once or throws: the
elements are visited in order until the iterator answers `true`; an exception thrown by
the iterator is not caught. -/
def someLimit {α ε : Type} (arr : List α) (_limit : Nat) (iterator : α → Except ε Bool) :
    Except ε Bool :=
  match arr with
  | [] => Except.ok false
  | x :: rest =>
    match iterator x with
    | Except.error e => Except.error e
    | Except.ok true => Except.ok true
    | Except.ok false => someLimit rest _limit iterator

/-! ## Filter and score -/

/-- The first stage after listing: `async.filterLimit(repos, ASYNC_LIMIT, ...)` with the
iterator that answers `false` exactly when `program.publicOnly && repo.private`. -/
def filterRepos (program : Program) (repos : List Repo) : List Repo :=
  filterLimit repos ASYNC_LIMIT (fun repo =>
    if program.publicOnly && repo.«private» then false else true)

/-- The numeric value of a boolean under `+=`: `true` is `1`, `false` is `0`. -/
def toNumber (b : Bool) : Nat :=
  if b then 1 else 0

/-- The function `calculateScore`. -/
def calculateScore (repo : ProbedRepo) : ScoredRepo :=
  let score := 0
  let score := score + toNumber repo.readme
  let score := score + toNumber repo.license
  let score := score + toNumber repo.contributing
  let score := score + toNumber repo.travis
  { toProbedRepo := repo, score := score }

/-! ## The probes -/

/-- An error value: what `glob` reports in `er`, or what `fs.readFileSync` throws. -/
abbrev Err := String

/-- The iterator the README probe gives to `async.someLimit`: the file is read, and the
answer is `false` when the contents are falsy (the empty string) and
`lineCount(fileContents) > 10` otherwise.  The function `fs.readFileSync` throws when the
file cannot be read, and nothing here catches that. -/
def readmeIterator (readFileSync : String → Except Err String) (lineCount : String → Nat)
    (repoLocation : String) (file : String) : Except Err Bool :=
  match readFileSync (repoLocation ++ "/" ++ file) with
  | Except.error e => Except.error e
  | Except.ok fileContents =>
    if fileContents = "" then Except.ok false
    else Except.ok (decide (lineCount fileContents > 10))

/-- The `readme` task, from the point where `glob("README*", ...)` has called back with
`(er, files)`: the pair handed to the task's callback, or the exception that escapes. -/
def readme (readFileSync : String → Except Err String) (lineCount : String → Nat)
    (repoLocation : String) (er : Option Err) (files : List String) :
    Except Err (Option Err × Bool) :=
  if files.length > 0 then
    match someLimit files ASYNC_LIMIT (readmeIterator readFileSync lineCount repoLocation) with
    | Except.error e => Except.error e
    | Except.ok result => Except.ok (er, result)
  else
    Except.ok (er, false)

/-- The property "the matched file has more than 10 lines of text", as the specification
words it: the file can be read and `lineCount` of its contents exceeds 10. -/
def moreThanTenLines (readFileSync : String → Except Err String) (lineCount : String → Nat)
    (repoLocation : String) (file : String) : Bool :=
  match readFileSync (repoLocation ++ "/" ++ file) with
  | Except.ok contents => decide (lineCount contents > 10)
  | Except.error _ => false

/-- The property "the matched file is empty": it can be read and its contents are the empty
string. -/
def isEmptyFile (readFileSync : String → Except Err String) (repoLocation : String)
    (file : String) : Bool :=
  match readFileSync (repoLocation ++ "/" ++ file) with
  | Except.ok contents => contents == ""
  | Except.error _ => false

/-- A line counter used in the examples: the number of pieces the text falls into when it
is cut at its newline characters, one more than the number of newline characters.  A text
of 10 lines counts 10 when its last line has no newline at its end, and 11 when every line
ends in a newline. -/
def exampleLineCount (text : String) : Nat :=
  (text.data.filter (fun c => c == '\n')).length + 1

/-- A checkout used in the examples: `README.md` has 10 lines, the last one without a
newline at its end (counted 10); `README.markdown` has 10 lines, each ended by a newline
(counted 11); `README.txt` has 11 lines, each ended by a newline (counted 12);
`README.rst` is empty; `README` is a directory; nothing else exists. -/
def exampleReadFileSync (path : String) : Except Err String :=
  if path = "/tmp/gh-review-1/7/README.md" then
    Except.ok "1\n2\n3\n4\n5\n6\n7\n8\n9\n10"
  else if path = "/tmp/gh-review-1/7/README.markdown" then
    Except.ok "1\n2\n3\n4\n5\n6\n7\n8\n9\n10\n"
  else if path = "/tmp/gh-review-1/7/README.txt" then
    Except.ok "1\n2\n3\n4\n5\n6\n7\n8\n9\n10\n11\n"
  else if path = "/tmp/gh-review-1/7/README.rst" then
    Except.ok ""
  else if path = "/tmp/gh-review-1/7/README" then
    Except.error "EISDIR: illegal operation on a directory, read"
  else
    Except.error "ENOENT: no such file or directory"

/-! ## The report order -/

/-- The UTF-16 code units of a list of characters: one unit for a character below
`0x10000`, a surrogate pair otherwise. -/
def codeUnitsOf : List Char → List Nat
  | [] => []
  | c :: cs =>
    (if c.toNat < 65536 then [c.toNat]
     else [55296 + (c.toNat - 65536) / 1024, 56320 + (c.toNat - 65536) % 1024])
      ++ codeUnitsOf cs

/-- The code units of a string, which is what `<` and `>` on strings compare. -/
def codeUnits (s : String) : List Nat :=
  codeUnitsOf s.data

/-- Lexicographic `<` on sequences of code units. -/
def codeUnitsLt : List Nat → List Nat → Bool
  | _, [] => false
  | [], _ :: _ => true
  | a :: as, b :: bs =>
    if a < b then true
    else if b < a then false
    else codeUnitsLt as bs

/-- The operator `<` on two strings. -/
def strLt (a b : String) : Bool :=
  codeUnitsLt (codeUnits a) (codeUnits b)

/-- The operator `>` on two strings. -/
def strGt (a b : String) : Bool :=
  codeUnitsLt (codeUnits b) (codeUnits a)

/-- The operator `<=` on two strings: `a <= b` is the negation of `b < a`. -/
def strLe (a b : String) : Bool :=
  !codeUnitsLt (codeUnits b) (codeUnits a)

/-- The comparison function given to `repos.sort`. -/
def compareRepos (a b : ScoredRepo) : Int :=
  if a.score > b.score then 1
  else if a.score < b.score then -1
  else if strGt a.full_name b.full_name then 1
  else if strLt a.full_name b.full_name then -1
  else 0

/-- One insertion step of `arraySort`: `element` goes in front of the first entry that
the comparison function does not put before it. -/
def arrayInsert {α : Type} (comparefn : α → α → Int) (element : α) : List α → List α
  | [] => [element]
  | x :: rest =>
    if comparefn element x ≤ 0 then element :: x :: rest
    else x :: arrayInsert comparefn element rest

/-- The method `Array.prototype.sort(comparefn)` of the runtime, as an insertion sort
that consults only the sign of `comparefn`. -/
def arraySort {α : Type} (comparefn : α → α → Int) : List α → List α
  | [] => []
  | x :: rest => arrayInsert comparefn x (arraySort comparefn rest)

/-- The call `repos.sort(function (a, b) ...)` of the report. -/
def sortRepos (repos : List ScoredRepo) : List ScoredRepo :=
  arraySort compareRepos repos

/-! ## Issue filing -/

/-- An issue as delivered by `github.getIssues(...).list`, restricted to the field the
program reads. -/
structure Issue where
  title : String
deriving DecidableEq, Repr

/-- The argument of `alternativeGithub.issues.create`. -/
structure IssueRequest where
  title : String
  body : String
  user : String
  repo : String
deriving DecidableEq, Repr

/-- The function `postIssue`: the calls of `alternativeGithub.issues.create` it makes.  The
fetched issues are filtered by `issue.title == title`, and the issue is created when the
filtered array `results` is empty (an array is truthy, so `results &&` holds). -/
def postIssue (issues : List Issue) (repo : ProbedRepo) (title description : String) :
    List IssueRequest :=
  let results := filterLimit issues ASYNC_LIMIT (fun issue => issue.title == title)
  if results.length == 0 then
    [{ title := title, body := description, user := repo.owner.login, repo := repo.name }]
  else
    []

/-- The description given to `postIssue` by the first step of the series. -/
def readmeDescription : String :=
  "A project is useless without a good readme. See here for a guide: https://gist.github.com/PurpleBooth/6f1ba788bf70fb501439, and here for an example https://gist.github.com/PurpleBooth/109311bb0361f32d87a2"

/-- The description given to `postIssue` by the second step of the series. -/
def licenseDescription : String :=
  "Without a license a user cannot use a project as they might be sued! See here for a guide: https://gist.github.com/PurpleBooth/6f1ba788bf70fb501439, and here for an example https://github.com/nevir/readable-licenses/tree/master/markdown"

/-- The description given to `postIssue` by the third step of the series. -/
def contributingDescription : String :=
  "A contributing file is a place for a user to work out how to contribute to a project, and what coding standards, and things they need to do before submitting code. It is also the place you should include a code of conduct, to make sure people know they can be expected to be treated fairly by the project. https://gist.github.com/PurpleBooth/6f1ba788bf70fb501439"

/-- The description given to `postIssue` by the fourth step of the series. -/
def travisDescription : String :=
  "Make life easier for people submitting code to your repository. Make sure that you double check that their code works the best you can (even if that\x27s just running a build of the package) in travis. This way potential contributors can fix bugs before you even need to look at their request. https://gist.github.com/PurpleBooth/6f1ba788bf70fb501439"

/-- The four functions given to `async.series` for one repository, run one after the
other: the calls of `alternativeGithub.issues.create` they make, in order. -/
def issueSeries (issues : List Issue) (repo : ProbedRepo) : List IssueRequest :=
  (if !repo.readme then postIssue issues repo "Missing Good Readme" readmeDescription
   else [])
  ++ (if !repo.license then postIssue issues repo "Missing a License" licenseDescription
      else [])
  ++ (if !repo.contributing then
        postIssue issues repo "Missing a CONTRIBUTING file" contributingDescription
      else [])
  ++ (if !repo.travis then
        postIssue issues repo "Missing a travis ci config" travisDescription
      else [])

/-- The four artifact kinds of the specification. -/
inductive Artifact where
  | readme
  | license
  | contributing
  | travis
deriving DecidableEq, Repr

/-- The canonical issue title of an artifact kind, as the specification lists them. -/
def canonicalTitle : Artifact → String
  | Artifact.readme => "Missing Good Readme"
  | Artifact.license => "Missing a License"
  | Artifact.contributing => "Missing a CONTRIBUTING file"
  | Artifact.travis => "Missing a travis ci config"

/-- The fixed issue body of an artifact kind. -/
def fixedBody : Artifact → String
  | Artifact.readme => readmeDescription
  | Artifact.license => licenseDescription
  | Artifact.contributing => contributingDescription
  | Artifact.travis => travisDescription

/-- The probe result of a repository for an artifact kind. -/
def probeOf (repo : ProbedRepo) : Artifact → Bool
  | Artifact.readme => repo.readme
  | Artifact.license => repo.license
  | Artifact.contributing => repo.contributing
  | Artifact.travis => repo.travis

/-- The calls of `alternativeGithub.issues.create` made by the `async.eachLimit(repos, 1, ...)`
loop: the series of each repository in turn, `issuesOf repo` being the issues that
`github.getIssues(...).list` delivers for it. -/
def issueFiler (issuesOf : ProbedRepo → List Issue) : List ProbedRepo → List IssueRequest
  | [] => []
  | repo :: rest => issueSeries (issuesOf repo) repo ++ issueFiler issuesOf rest

/-! ## The report -/

/-- A record after `prettyTicks`. -/
structure RenderedRepo extends ScoredRepo where
  readmeOut : String
  licenseOut : String
  contributingOut : String
  travisOut : String
  privateOut : String
deriving DecidableEq, Repr

/-- The getter `.green` of the `colors` package: the text between the escape sequences
for green and for the default colour when colours are enabled, the text itself
otherwise. -/
def green (colorsEnabled : Bool) (text : String) : String :=
  if colorsEnabled then "\x1b[32m" ++ text ++ "\x1b[39m" else text

/-- The getter `.red` of the `colors` package. -/
def red (colorsEnabled : Bool) (text : String) : String :=
  if colorsEnabled then "\x1b[31m" ++ text ++ "\x1b[39m" else text

/-- The function `prettyTicks`. -/
def prettyTicks (colorsEnabled : Bool) (repo : ScoredRepo) : RenderedRepo :=
  { toScoredRepo := repo
    readmeOut := if repo.readme then green colorsEnabled "✓" else red colorsEnabled "✗"
    licenseOut := if repo.license then green colorsEnabled "✓" else red colorsEnabled "✗"
    contributingOut :=
      if repo.contributing then green colorsEnabled "✓" else red colorsEnabled "✗"
    travisOut := if repo.travis then green colorsEnabled "✓" else red colorsEnabled "✗"
    privateOut := if repo.«private» then "private" else "public" }

/-- A cell of the table: a string, or the number `repo.score`. -/
inductive Cell where
  | text (value : String)
  | number (value : Nat)
deriving DecidableEq, Repr

/-- The array pushed onto the table for one repository. -/
def tableRow (repo : RenderedRepo) : List Cell :=
  [Cell.text repo.full_name, Cell.text repo.privateOut, Cell.text repo.readmeOut,
   Cell.text repo.licenseOut, Cell.text repo.contributingOut, Cell.text repo.travisOut,
   Cell.number repo.score]

/-- The rows of the table: `async.mapLimit(repos, ASYNC_LIMIT, calculateScore, ...)`, then
`repos.sort(...)`, then `async.mapLimit(repos, ASYNC_LIMIT, prettyTicks, ...)`, then one
`table.push` for each record. -/
def reportRows (colorsEnabled : Bool) (repos : List ProbedRepo) : List (List Cell) :=
  let scored := mapLimit repos ASYNC_LIMIT calculateScore
  let sorted := sortRepos scored
  let rendered := mapLimit sorted ASYNC_LIMIT (prettyTicks colorsEnabled)
  rendered.map tableRow

/-- The option `head` of the table. -/
def tableHead : List String :=
  ["Name", "Private", "README", "LICENSE", "CONTRIBUTING", "Travis", "Score"]

/-- Removal of the escape sequences of `colors` from a text: from the escape character up
to the next `m`.  The flag tells whether an escape sequence is being skipped. -/
def stripColor : Bool → List Char → List Char
  | _, [] => []
  | true, c :: cs => if c = 'm' then stripColor false cs else stripColor true cs
  | false, c :: cs => if c = '\x1b' then stripColor true cs else c :: stripColor false cs

/-- The glyph a cell shows once the colour is taken away. -/
def shownGlyph (cell : String) : String :=
  String.mk (stripColor false cell.data)

/-- The row of the report as the specification words it: full name, visibility, the four
presence glyphs, score. -/
def specRow (colorsEnabled : Bool) (repo : ScoredRepo) : List Cell :=
  [Cell.text repo.full_name,
   Cell.text (if repo.«private» then "private" else "public"),
   Cell.text (if repo.readme then green colorsEnabled "✓" else red colorsEnabled "✗"),
   Cell.text (if repo.license then green colorsEnabled "✓" else red colorsEnabled "✗"),
   Cell.text (if repo.contributing then green colorsEnabled "✓" else red colorsEnabled "✗"),
   Cell.text (if repo.travis then green colorsEnabled "✓" else red colorsEnabled "✗"),
   Cell.number repo.score]

/-! ## The run after listing -/

/-- The effects of a run that the properties are about.  Progress messages written with
`console.log` are left out. -/
inductive Event where
  /-- The call `console.error(er)`. -/
  | consoleError (er : Err)
  /-- The call `process.exit(code)`, which ends the run. -/
  | exit (code : Nat)
  /-- An exception nothing catches, which ends the run. -/
  | uncaughtException (er : Err)
  /-- The call `fs.remove(path)`. -/
  | remove (path : String)
  /-- The call `console.log(table.toString())`. -/
  | table (head : List String) (rows : List (List Cell))
  /-- The call `alternativeGithub.issues.create(request, ...)`. -/
  | createIssue (request : IssueRequest)
deriving DecidableEq, Repr

/-- The variable `tmpDirectory`, for the process id `pid`. -/
def tmpDirectory (pid : Nat) : String :=
  "/tmp/gh-review-" ++ toString pid

/-- What `glob` hands to its callback `function (er, files)`: an error alone, `files`
being `undefined`, or no error and the array of matches. -/
inductive GlobResult where
  | failed (er : Err)
  | matched (files : List String)
deriving DecidableEq, Repr

/-- The exception of reading `files.length` when `files` is `undefined`. -/
def lengthOfUndefined : Err :=
  "TypeError: Cannot read property \x27length\x27 of undefined"

/-- The `readme` task on what `glob("README*", ...)` delivers.  The callback reads
`files.length` first, which throws when `glob` has failed; with matches, `er` is `null`. -/
def readmeTask (readFileSync : String → Except Err String) (lineCount : String → Nat)
    (repoLocation : String) (result : GlobResult) : Except Err (Option Err × Bool) :=
  match result with
  | GlobResult.failed _ => Except.error lengthOfUndefined
  | GlobResult.matched files => readme readFileSync lineCount repoLocation none files

/-- The `license`, `contributing` and `travis` tasks on what their `glob` delivers: the
callback hands on `(er, files.length > 0)`, and reading `files.length` throws when `glob`
has failed. -/
def existsProbe (result : GlobResult) : Except Err (Option Err × Bool) :=
  match result with
  | GlobResult.failed _ => Except.error lengthOfUndefined
  | GlobResult.matched files => Except.ok (none, decide (files.length > 0))

/-- What the four `glob` calls of one checkout deliver. -/
structure Globs where
  readme : GlobResult
  license : GlobResult
  contributing : GlobResult
  travis : GlobResult
deriving DecidableEq, Repr

/-- The first error of a list of task results, if there is one. -/
def firstError : List (Option Err) → Option Err
  | [] => none
  | some er :: _ => some er
  | none :: rest => firstError rest

/-- The call `async.parallelLimit({readme, license, contributing, travis}, ...)` for one
checkout, the tasks answering in the order they are listed: the pair `(er, status)` handed
to the final callback, or the first exception that escapes from a task. -/
def probes (readFileSync : String → Except Err String) (lineCount : String → Nat)
    (repoLocation : String) (globs : Globs) : Except Err (Option Err × Status) :=
  match readmeTask readFileSync lineCount repoLocation globs.readme with
  | Except.error e => Except.error e
  | Except.ok (er1, readmeResult) =>
    match existsProbe globs.license with
    | Except.error e => Except.error e
    | Except.ok (er2, licenseResult) =>
      match existsProbe globs.contributing with
      | Except.error e => Except.error e
      | Except.ok (er3, contributingResult) =>
        match existsProbe globs.travis with
        | Except.error e => Except.error e
        | Except.ok (er4, travisResult) =>
          Except.ok (firstError [er1, er2, er3, er4],
            { readme := readmeResult, license := licenseResult,
              contributing := contributingResult, travis := travisResult })

/-- The fan-out `async.forEachOfLimit(repos, ASYNC_LIMIT, ...)`, the repositories finishing
in the order of the list: the events, and the enriched records when the run is still
alive.  For each repository the final callback of `parallelLimit` either finds `er` set,
writes it to standard error and calls `process.exit(1)`, or stores the enriched record. -/
def fanOut (tmp : String) (readFileSync : String → Except Err String)
    (lineCount : String → Nat) (globsOf : Repo → Globs) :
    List Repo → List Event × Option (List ProbedRepo)
  | [] => ([], some [])
  | repo :: rest =>
    let repoLocation := tmp ++ "/" ++ toString repo.id
    match probes readFileSync lineCount repoLocation (globsOf repo) with
    | Except.error e => ([Event.uncaughtException e], none)
    | Except.ok (some er, _) => ([Event.consoleError er, Event.exit 1], none)
    | Except.ok (none, status) =>
      match fanOut tmp readFileSync lineCount globsOf rest with
      | (events, none) => (events, none)
      | (events, some probed) =>
        (events,
          some ({ toRepo := repo, toStatus := status, checkout_location := repoLocation }
            :: probed))

/-- The final callback of the fan-out, called with `er` and the enriched records: on an
error the message and `process.exit(1)`; otherwise `fs.remove(tmpDirectory)`, then the
table, and, with `createIssues`, the issues, whose requests go out once the listing of a
repository's issues has answered, after the table has been printed. -/
def joinCallback (program : Program) (colorsEnabled : Bool) (tmp : String)
    (issuesOf : ProbedRepo → List Issue) (er : Option Err) (repos : List ProbedRepo) :
    List Event :=
  match er with
  | some e => [Event.consoleError e, Event.exit 1]
  | none =>
    [Event.remove tmp]
      ++ [Event.table tableHead (reportRows colorsEnabled repos)]
      ++ (if program.createIssues then (issueFiler issuesOf repos).map Event.createIssue
          else [])

/-- The callback of `user.orgRepos`, called with `er` and the listed repositories: the
events of the rest of the run. -/
def afterListing (program : Program) (colorsEnabled : Bool) (pid : Nat)
    (readFileSync : String → Except Err String) (lineCount : String → Nat)
    (globsOf : Repo → Globs) (issuesOf : ProbedRepo → List Issue)
    (er : Option Err) (repos : List Repo) : List Event :=
  match er with
  | some e => [Event.consoleError e, Event.exit 1]
  | none =>
    match fanOut (tmpDirectory pid) readFileSync lineCount globsOf
        (filterRepos program repos) with
    | (events, none) => events
    | (events, some probed) =>
      events ++ joinCallback program colorsEnabled (tmpDirectory pid) issuesOf none probed

/-- Whether the probes of a repository keep the run from reaching the join: an exception
escapes, or `er` is set. -/
def probeFails (pid : Nat) (readFileSync : String → Except Err String)
    (lineCount : String → Nat) (globsOf : Repo → Globs) (repo : Repo) : Bool :=
  match probes readFileSync lineCount (tmpDirectory pid ++ "/" ++ toString repo.id)
      (globsOf repo) with
  | Except.ok (none, _) => false
  | _ => true

/-! ## Example inputs -/

/-- A command line with an OAuth token, a user name and a password at once. -/
def exampleProgramAllCredentials : Program :=
  { username := some "octocat", password := some "hunter2", oauth := some "0a1b2c3d",
    createIssues := false, publicOnly := false, args := ["acme"] }

/-- A command line with no credentials. -/
def exampleProgram : Program :=
  { username := none, password := none, oauth := none,
    createIssues := false, publicOnly := false, args := ["acme"] }

/-- A repository record used in the examples. -/
def exampleRepo (id : Nat) (name : String) : Repo :=
  { id := id, name := name, full_name := "acme/" ++ name, owner := { login := "acme" },
    «private» := false, clone_url := "https://github.com/acme/" ++ name ++ ".git" }

/-- Glob results of a checkout whose only match of `README*` is the directory `README`,
with no LICENSE, CONTRIBUTING or Travis file. -/
def exampleGlobsReadmeDirectory (_repo : Repo) : Globs :=
  { readme := GlobResult.matched ["README"]
    license := GlobResult.matched []
    contributing := GlobResult.matched []
    travis := GlobResult.matched [] }

/-- Glob results of a checkout with two README files, a LICENSE and a Travis
configuration. -/
def exampleGlobs (_repo : Repo) : Globs :=
  { readme := GlobResult.matched ["README.rst", "README.txt"]
    license := GlobResult.matched ["LICENSE"]
    contributing := GlobResult.matched []
    travis := GlobResult.matched [".travis.yml"] }

/-- A probed record used in the examples. -/
def exampleProbed (id : Nat) (name : String) (readme license contributing travis : Bool) :
    ProbedRepo :=
  { toRepo := exampleRepo id name
    toStatus :=
      { readme := readme, license := license, contributing := contributing,
        travis := travis }
    checkout_location := tmpDirectory 1 ++ "/" ++ toString id }

/-- The order of the report as the specification words it: by score ascending, then by
full name ascending. -/
def scoreNameLe (a b : ScoredRepo) : Prop :=
  a.score < b.score ∨ (a.score = b.score ∧ strLe a.full_name b.full_name = true)

/-! ## Properties -/

theorem filterLimit_eq_filter {α : Type} (arr : List α) (limit : Nat) (iterator : α → Bool) :
    filterLimit arr limit iterator = arr.filter iterator := by
  induction arr with
  | nil => rfl
  | cons x rest ih =>
    by_cases h : iterator x = true
    · simp [filterLimit, h, ih]
    · simp [filterLimit, h, ih]

theorem mapLimit_eq_map {α β : Type} (arr : List α) (limit : Nat) (iterator : α → β) :
    mapLimit arr limit iterator = arr.map iterator := by
  induction arr with
  | nil => rfl
  | cons x rest ih => simp [mapLimit, ih]

/-! ### The order on strings and the sort -/

theorem codeUnitsLt_irrefl (a : List Nat) : codeUnitsLt a a = false := by
  induction a with
  | nil => rfl
  | cons x xs ih => simp [codeUnitsLt, ih]

theorem codeUnitsLt_asymm : ∀ (a b : List Nat), codeUnitsLt a b = true → codeUnitsLt b a = false
  | _, [] => by simp [codeUnitsLt]
  | [], _ :: _ => by simp [codeUnitsLt]
  | x :: xs, y :: ys => by
    intro h
    simp only [codeUnitsLt] at h ⊢
    by_cases hxy : x < y
    · have hyx : ¬ y < x := by omega
      simp [hxy, hyx]
    · by_cases hyx : y < x
      · simp [hxy, hyx] at h
      · simp only [hxy, hyx, if_false] at h ⊢
        exact codeUnitsLt_asymm xs ys h

theorem codeUnitsLt_le_trans : ∀ (a b c : List Nat),
    codeUnitsLt b a = false → codeUnitsLt c b = false → codeUnitsLt c a = false
  | [], _, _ => by
    intro _ _
    cases ‹List Nat› <;> simp [codeUnitsLt]
  | _ :: _, [], _ => by
    intro h
    simp [codeUnitsLt] at h
  | _ :: _, _ :: _, [] => by
    intro _ h
    simp [codeUnitsLt] at h
  | x :: xs, y :: ys, z :: zs => by
    intro h1 h2
    simp only [codeUnitsLt] at h1 h2 ⊢
    by_cases hyx : y < x
    · simp [hyx] at h1
    · by_cases hxy : x < y
      · by_cases hzy : z < y
        · simp [hzy] at h2
        · have hzx : ¬ z < x := by omega
          have hxz : x < z := by omega
          simp [hzx, hxz]
      · simp only [hyx, hxy, if_false] at h1
        by_cases hzy : z < y
        · simp [hzy] at h2
        · by_cases hyz : y < z
          · have hzx : ¬ z < x := by omega
            have hxz : x < z := by omega
            simp [hzx, hxz]
          · simp only [hzy, hyz, if_false] at h2
            have hzx : ¬ z < x := by omega
            have hxz : ¬ x < z := by omega
            simp only [hzx, hxz, if_false]
            exact codeUnitsLt_le_trans xs ys zs h1 h2

theorem compareRepos_nonpos_iff (a b : ScoredRepo) :
    compareRepos a b ≤ 0 ↔ scoreNameLe a b := by
  unfold compareRepos scoreNameLe strLe strGt strLt
  by_cases h1 : a.score > b.score
  · simp [h1]
    omega
  · by_cases h2 : a.score < b.score
    · simp [h1, h2]
    · have h3 : a.score = b.score := by omega
      by_cases h4 : codeUnitsLt (codeUnits b.full_name) (codeUnits a.full_name) = true
      · simp [h3, h4]
      · by_cases h5 : codeUnitsLt (codeUnits a.full_name) (codeUnits b.full_name) = true
        · simp [h3, h4, h5]
        · simp [h3, h4, h5]

theorem scoreNameLe_total (a b : ScoredRepo) : scoreNameLe a b ∨ scoreNameLe b a := by
  unfold scoreNameLe strLe
  rcases Nat.lt_trichotomy a.score b.score with h | h | h
  · exact Or.inl (Or.inl h)
  · cases hlt : codeUnitsLt (codeUnits b.full_name) (codeUnits a.full_name)
    · exact Or.inl (Or.inr ⟨h, by simp⟩)
    · exact Or.inr (Or.inr ⟨h.symm, by simp [codeUnitsLt_asymm _ _ hlt]⟩)
  · exact Or.inr (Or.inl h)

theorem scoreNameLe_trans (a b c : ScoredRepo) (hab : scoreNameLe a b) (hbc : scoreNameLe b c) :
    scoreNameLe a c := by
  unfold scoreNameLe strLe at *
  rcases hab with hab | ⟨hab, nab⟩
  · rcases hbc with hbc | ⟨hbc, _⟩
    · exact Or.inl (by omega)
    · exact Or.inl (by omega)
  · rcases hbc with hbc | ⟨hbc, nbc⟩
    · exact Or.inl (by omega)
    · refine Or.inr ⟨by omega, ?_⟩
      simp only [Bool.not_eq_true', Bool.not_eq_eq_eq_not, Bool.not_true] at nab nbc ⊢
      exact codeUnitsLt_le_trans _ _ _ nab nbc

theorem arrayInsert_perm {α : Type} (comparefn : α → α → Int) (element : α) (l : List α) :
    (arrayInsert comparefn element l).Perm (element :: l) := by
  induction l with
  | nil => exact List.Perm.refl _
  | cons x rest ih =>
    unfold arrayInsert
    by_cases h : comparefn element x ≤ 0
    · simp [h]
    · simp only [h, if_false]
      exact (List.Perm.cons x ih).trans (List.Perm.swap element x rest)

theorem arraySort_perm {α : Type} (comparefn : α → α → Int) (l : List α) :
    (arraySort comparefn l).Perm l := by
  induction l with
  | nil => exact List.Perm.refl _
  | cons x rest ih =>
    unfold arraySort
    exact (arrayInsert_perm comparefn x _).trans (List.Perm.cons x ih)

theorem arrayInsert_pairwise {α : Type} (comparefn : α → α → Int)
    (htotal : ∀ a b, comparefn a b ≤ 0 ∨ comparefn b a ≤ 0)
    (htrans : ∀ a b c, comparefn a b ≤ 0 → comparefn b c ≤ 0 → comparefn a c ≤ 0)
    (element : α) (l : List α) (hl : l.Pairwise (fun a b => comparefn a b ≤ 0)) :
    (arrayInsert comparefn element l).Pairwise (fun a b => comparefn a b ≤ 0) := by
  induction l with
  | nil => simp [arrayInsert]
  | cons x rest ih =>
    unfold arrayInsert
    rw [List.pairwise_cons] at hl
    by_cases h : comparefn element x ≤ 0
    · simp only [h, if_true]
      refine List.Pairwise.cons ?_ (List.Pairwise.cons hl.1 hl.2)
      intro y hy
      rcases List.mem_cons.mp hy with rfl | hy
      · exact h
      · exact htrans _ _ _ h (hl.1 y hy)
    · simp only [h, if_false]
      refine List.Pairwise.cons ?_ (ih hl.2)
      intro y hy
      have hy2 : y ∈ element :: rest := (arrayInsert_perm comparefn element rest).mem_iff.mp hy
      rcases List.mem_cons.mp hy2 with rfl | hy2
      · rcases htotal y x with h2 | h2
        · exact absurd h2 h
        · exact h2
      · exact hl.1 y hy2

theorem arraySort_pairwise {α : Type} (comparefn : α → α → Int)
    (htotal : ∀ a b, comparefn a b ≤ 0 ∨ comparefn b a ≤ 0)
    (htrans : ∀ a b c, comparefn a b ≤ 0 → comparefn b c ≤ 0 → comparefn a c ≤ 0)
    (l : List α) : (arraySort comparefn l).Pairwise (fun a b => comparefn a b ≤ 0) := by
  induction l with
  | nil => simp [arraySort]
  | cons x rest ih =>
    unfold arraySort
    exact arrayInsert_pairwise comparefn htotal htrans x _ ih

theorem sortRepos_pairwise (repos : List ScoredRepo) :
    (sortRepos repos).Pairwise scoreNameLe := by
  have h := arraySort_pairwise compareRepos
    (fun a b => by
      rw [compareRepos_nonpos_iff, compareRepos_nonpos_iff]
      exact scoreNameLe_total a b)
    (fun a b c => by
      rw [compareRepos_nonpos_iff, compareRepos_nonpos_iff, compareRepos_nonpos_iff]
      exact scoreNameLe_trans a b c)
    repos
  exact h.imp (fun {a b} hab => (compareRepos_nonpos_iff a b).mp hab)

/-- C2. The list produced by the report sort is a permutation of its input in which every
adjacent pair `(a, b)` has `a.score < b.score`, or `a.score = b.score` and
`a.full_name <= b.full_name`; and whenever `a` stands before `b` in it with equal scores,
`b.full_name` is not smaller than `a.full_name`. -/
theorem sortRepos_perm_and_ordered (repos : List ScoredRepo) :
    (sortRepos repos).Perm repos
      ∧ List.Chain' (fun a b =>
          a.score < b.score ∨ (a.score = b.score ∧ strLe a.full_name b.full_name = true))
          (sortRepos repos)
      ∧ ∀ a b, [a, b].Sublist (sortRepos repos) → a.score = b.score →
          strLt b.full_name a.full_name = false := by
  refine ⟨arraySort_perm compareRepos repos, ?_, ?_⟩
  · exact List.Pairwise.chain' (sortRepos_pairwise repos)
  · intro a b hsub hscore
    have hab : scoreNameLe a b := List.pairwise_iff_forall_sublist.mp (sortRepos_pairwise repos) hsub
    rcases hab with hlt | ⟨_, hle⟩
    · omega
    · simpa [strLe, strLt] using hle

/-! ### The README probe -/

theorem someLimit_readmeIterator (readFileSync : String → Except Err String)
    (lineCount : String → Nat) (repoLocation : String) (limit : Nat) (files : List String)
    (hRead : ∀ file ∈ files, ∃ contents,
      readFileSync (repoLocation ++ "/" ++ file) = Except.ok contents) :
    someLimit files limit (readmeIterator readFileSync lineCount repoLocation)
      = Except.ok (files.any (fun file =>
          !isEmptyFile readFileSync repoLocation file
            && moreThanTenLines readFileSync lineCount repoLocation file)) := by
  induction files with
  | nil => rfl
  | cons file rest ih =>
    have hrest := ih (fun f hf => hRead f (List.mem_cons_of_mem _ hf))
    obtain ⟨contents, hc⟩ := hRead file (List.mem_cons_self _ _)
    by_cases hempty : contents = ""
    · simp [someLimit, readmeIterator, isEmptyFile, moreThanTenLines, hc, hempty, hrest]
    · by_cases hlong : lineCount contents > 10
      · simp [someLimit, readmeIterator, isEmptyFile, moreThanTenLines, hc, hempty, hlong]
      · simp [someLimit, readmeIterator, isEmptyFile, moreThanTenLines, hc, hempty, hlong,
          hrest]

theorem readme_of_readable (readFileSync : String → Except Err String)
    (lineCount : String → Nat) (repoLocation : String) (er : Option Err) (files : List String)
    (hRead : ∀ file ∈ files, ∃ contents,
      readFileSync (repoLocation ++ "/" ++ file) = Except.ok contents) :
    readme readFileSync lineCount repoLocation er files
      = Except.ok (er, files.any (fun file =>
          !isEmptyFile readFileSync repoLocation file
            && moreThanTenLines readFileSync lineCount repoLocation file)) := by
  unfold readme
  rw [someLimit_readmeIterator readFileSync lineCount repoLocation ASYNC_LIMIT files hRead]
  cases files with
  | nil => rfl
  | cons file rest => simp

theorem not_empty_of_moreThanTenLines (readFileSync : String → Except Err String)
    (lineCount : String → Nat) (repoLocation : String) (hEmpty : lineCount "" ≤ 10)
    (file : String) (h : moreThanTenLines readFileSync lineCount repoLocation file = true) :
    isEmptyFile readFileSync repoLocation file = false := by
  unfold moreThanTenLines at h
  unfold isEmptyFile
  cases hc : readFileSync (repoLocation ++ "/" ++ file) with
  | error e => rfl
  | ok contents =>
    rw [hc] at h
    simp only [decide_eq_true_eq] at h
    by_cases he : contents = ""
    · subst he
      omega
    · simp [he]

/-- C4, as the code has it.  When every matched file can be read, the README probe
answers the logical OR of "line count > 10" over the matched files: `true` if and only if
at least one matched file has more than 10 lines, hence `false` with no matches, and for a
single match `false` at a count of 10 and `true` at a count of 11.  Lines are what the
`line-count` package counts, a parameter here, assumed not to count more than 10 lines in
the empty text. -/
theorem readme_true_iff_some_file_over_ten_lines (readFileSync : String → Except Err String)
    (lineCount : String → Nat) (repoLocation : String) (er : Option Err) (files : List String)
    (hEmpty : lineCount "" ≤ 10)
    (hRead : ∀ file ∈ files, ∃ contents,
      readFileSync (repoLocation ++ "/" ++ file) = Except.ok contents) :
    readme readFileSync lineCount repoLocation er files
        = Except.ok (er, files.any (moreThanTenLines readFileSync lineCount repoLocation))
      ∧ (readme readFileSync lineCount repoLocation er files = Except.ok (er, true)
          ↔ ∃ file ∈ files, ∃ contents,
              readFileSync (repoLocation ++ "/" ++ file) = Except.ok contents
                ∧ lineCount contents > 10)
      ∧ (∀ file contents, readFileSync (repoLocation ++ "/" ++ file) = Except.ok contents →
          readme readFileSync lineCount repoLocation er [file]
            = Except.ok (er, decide (lineCount contents > 10))) := by
  refine and_assoc.mp ⟨?_, ?_⟩
  swap
  · intro file contents hc
    have h1 := readme_of_readable readFileSync lineCount repoLocation er [file]
      (fun f hf => by
        rw [List.mem_singleton] at hf
        subst hf
        exact ⟨contents, hc⟩)
    rw [h1]
    by_cases he : contents = ""
    · subst he
      have : ¬ lineCount "" > 10 := by omega
      simp [isEmptyFile, moreThanTenLines, hc, this]
    · simp [isEmptyFile, moreThanTenLines, hc, he]
  have hany : files.any (fun file =>
        !isEmptyFile readFileSync repoLocation file
          && moreThanTenLines readFileSync lineCount repoLocation file)
      = files.any (moreThanTenLines readFileSync lineCount repoLocation) := by
    apply congrArg (fun p => files.any p)
    funext file
    cases hm : moreThanTenLines readFileSync lineCount repoLocation file
    · simp
    · simp [not_empty_of_moreThanTenLines readFileSync lineCount repoLocation hEmpty file hm]
  have heq := readme_of_readable readFileSync lineCount repoLocation er files hRead
  rw [hany] at heq
  refine ⟨heq, ?_⟩
  rw [heq]
  constructor
  · intro h
    have h2 : files.any (moreThanTenLines readFileSync lineCount repoLocation) = true := by
      simpa using h
    obtain ⟨file, hf, hm⟩ := List.any_eq_true.mp h2
    refine ⟨file, hf, ?_⟩
    unfold moreThanTenLines at hm
    cases hc : readFileSync (repoLocation ++ "/" ++ file) with
    | error e => rw [hc] at hm; cases hm
    | ok contents =>
      rw [hc] at hm
      exact ⟨contents, rfl, by simpa using hm⟩
  · rintro ⟨file, hf, contents, hc, hlong⟩
    have hm : moreThanTenLines readFileSync lineCount repoLocation file = true := by
      simp [moreThanTenLines, hc, hlong]
    have h2 : files.any (moreThanTenLines readFileSync lineCount repoLocation) = true :=
      List.any_eq_true.mpr ⟨file, hf, hm⟩
    rw [h2]

theorem exampleReadFileSync_readable :
    ∀ file ∈ ["README.md", "README.markdown", "README.txt", "README.rst"], ∃ contents,
      exampleReadFileSync ("/tmp/gh-review-1/7" ++ "/" ++ file) = Except.ok contents := by
  intro file hf
  simp only [List.mem_cons, List.mem_singleton, List.not_mem_nil, or_false] at hf
  rcases hf with rfl | rfl | rfl | rfl
  · exact ⟨_, rfl⟩
  · exact ⟨_, rfl⟩
  · exact ⟨_, rfl⟩
  · exact ⟨_, rfl⟩

/-- Witness for C4 as the code has it: in the example checkout the empty text counts one
line, the four matched files can be read, and the probe answers `true`; `README.md`
alone, counted at exactly 10 lines, gives `false`; `README.markdown` alone, counted at 11
lines because each of its 10 lines ends in a newline, gives `true`; no match gives
`false`. -/
theorem readme_true_iff_some_file_over_ten_lines_witness :
    exampleLineCount "" ≤ 10
      ∧ readme exampleReadFileSync exampleLineCount "/tmp/gh-review-1/7" none
          ["README.md", "README.markdown", "README.txt", "README.rst"] = Except.ok (none, true)
      ∧ (exampleLineCount "1\n2\n3\n4\n5\n6\n7\n8\n9\n10" = 10
          ∧ readme exampleReadFileSync exampleLineCount "/tmp/gh-review-1/7" none ["README.md"]
              = Except.ok (none, false))
      ∧ (exampleLineCount "1\n2\n3\n4\n5\n6\n7\n8\n9\n10\n" = 11
          ∧ readme exampleReadFileSync exampleLineCount "/tmp/gh-review-1/7" none
              ["README.markdown"] = Except.ok (none, true))
      ∧ readme exampleReadFileSync exampleLineCount "/tmp/gh-review-1/7" none []
          = Except.ok (none, false) := by
  have h := readme_true_iff_some_file_over_ten_lines exampleReadFileSync exampleLineCount
    "/tmp/gh-review-1/7" none ["README.md", "README.markdown", "README.txt", "README.rst"]
    (by decide) exampleReadFileSync_readable
  refine ⟨by decide, ?_, ⟨by decide, ?_⟩, ⟨by decide, ?_⟩, rfl⟩
  · rw [h.1]
    rfl
  · rw [h.2.2 "README.md" "1\n2\n3\n4\n5\n6\n7\n8\n9\n10" rfl]
    rfl
  · rw [h.2.2 "README.markdown" "1\n2\n3\n4\n5\n6\n7\n8\n9\n10\n" rfl]
    rfl

/-- Counterexample to C4 as stated: of the matches `README`, `README.txt` and `README.md`
the second can be read and has more than 10 lines, yet the probe does not answer `true`:
`README` is a directory, and the error of reading it escapes.  So "the probe answers
`true` if and only if some matched file has more than 10 lines" fails here. -/
theorem readme_iff_fails_with_unreadable_match :
    ¬ (readme exampleReadFileSync exampleLineCount "/tmp/gh-review-1/7" none
          ["README", "README.txt", "README.md"] = Except.ok (none, true)
        ↔ ∃ file ∈ ["README", "README.txt", "README.md"], ∃ contents,
            exampleReadFileSync ("/tmp/gh-review-1/7" ++ "/" ++ file) = Except.ok contents
              ∧ exampleLineCount contents > 10)
      ∧ readme exampleReadFileSync exampleLineCount "/tmp/gh-review-1/7" none
          ["README", "README.txt", "README.md"]
          = Except.error "EISDIR: illegal operation on a directory, read" := by
  have h : readme exampleReadFileSync exampleLineCount "/tmp/gh-review-1/7" none
      ["README", "README.txt", "README.md"]
      = Except.error "EISDIR: illegal operation on a directory, read" := rfl
  refine ⟨?_, h⟩
  intro hiff
  have hex : ∃ file ∈ ["README", "README.txt", "README.md"], ∃ contents,
      exampleReadFileSync ("/tmp/gh-review-1/7" ++ "/" ++ file) = Except.ok contents
        ∧ exampleLineCount contents > 10 :=
    ⟨"README.txt", by simp, "1\n2\n3\n4\n5\n6\n7\n8\n9\n10\n11\n", rfl, by decide⟩
  have htrue := hiff.mpr hex
  rw [h] at htrue
  cases htrue

theorem any_filter_and {α : Type} (p q : α → Bool) (l : List α) :
    (l.filter p).any q = l.any (fun x => p x && q x) := by
  induction l with
  | nil => rfl
  | cons x rest ih =>
    cases hp : p x <;> simp [List.filter_cons, hp, ih]

theorem someLimit_raises (readFileSync : String → Except Err String)
    (lineCount : String → Nat) (repoLocation : String) (limit : Nat) (files : List String)
    (file : String) (rest : List String) (e : Err)
    (hRead : ∀ f ∈ files, ∃ contents,
      readFileSync (repoLocation ++ "/" ++ f) = Except.ok contents)
    (hShort : files.any (fun f =>
        !isEmptyFile readFileSync repoLocation f
          && moreThanTenLines readFileSync lineCount repoLocation f) = false)
    (hErr : readFileSync (repoLocation ++ "/" ++ file) = Except.error e) :
    someLimit (files ++ file :: rest) limit (readmeIterator readFileSync lineCount repoLocation)
      = Except.error e := by
  induction files with
  | nil => simp [someLimit, readmeIterator, hErr]
  | cons f fs ih =>
    obtain ⟨contents, hc⟩ := hRead f (List.mem_cons_self _ _)
    rw [List.any_cons, Bool.or_eq_false_iff] at hShort
    have hfs := ih (fun g hg => hRead g (List.mem_cons_of_mem _ hg)) hShort.2
    have hf := hShort.1
    by_cases hempty : contents = ""
    · simp [someLimit, readmeIterator, hc, hempty, hfs]
    · have hlong : ¬ lineCount contents > 10 := by
        intro hl
        simp [isEmptyFile, moreThanTenLines, hc, hempty, hl] at hf
      simp [someLimit, readmeIterator, hc, hempty, hlong, hfs]

/-- C5, as the code has it.  When every matched file can be read, an empty matched file is
a non-match and does not abort the probe: the probe answers, without raising an error, the
logical OR over the matched files of "not empty and more than 10 lines", and answers the
same with the empty files left out of the matches.  A match that fails to read is not a
non-match: when it follows only matches that are not long enough, the error of the read
escapes from the probe. -/
theorem readme_empty_match_is_skipped (readFileSync : String → Except Err String)
    (lineCount : String → Nat) (repoLocation : String) (er : Option Err) (files : List String)
    (hRead : ∀ file ∈ files, ∃ contents,
      readFileSync (repoLocation ++ "/" ++ file) = Except.ok contents) :
    readme readFileSync lineCount repoLocation er files
        = Except.ok (er, files.any (fun file =>
            !isEmptyFile readFileSync repoLocation file
              && moreThanTenLines readFileSync lineCount repoLocation file))
      ∧ readme readFileSync lineCount repoLocation er files
        = readme readFileSync lineCount repoLocation er
            (files.filter (fun file => !isEmptyFile readFileSync repoLocation file))
      ∧ (∀ file rest e,
          files.any (fun file =>
              !isEmptyFile readFileSync repoLocation file
                && moreThanTenLines readFileSync lineCount repoLocation file) = false →
          readFileSync (repoLocation ++ "/" ++ file) = Except.error e →
          readme readFileSync lineCount repoLocation er (files ++ file :: rest)
            = Except.error e) := by
  have h1 := readme_of_readable readFileSync lineCount repoLocation er files hRead
  have h2 := readme_of_readable readFileSync lineCount repoLocation er
    (files.filter (fun file => !isEmptyFile readFileSync repoLocation file))
    (fun f hf => hRead f (List.mem_of_mem_filter hf))
  refine ⟨h1, ?_, ?_⟩
  · rw [h1, h2, any_filter_and]
    congr 2
    apply congrArg (fun p => files.any p)
    funext file
    cases isEmptyFile readFileSync repoLocation file <;> simp
  · intro file rest e hShort hErr
    unfold readme
    rw [someLimit_raises readFileSync lineCount repoLocation ASYNC_LIMIT files file rest e
      hRead hShort hErr]
    simp

/-- Witness for C5 as the code has it: with the empty `README.rst` matched before the
11-line `README.txt`, both readable, the probe answers `true`; with the empty `README.rst`
and the 10-line `README.md` matched before the unreadable `README`, the error escapes. -/
theorem readme_empty_match_is_skipped_witness :
    isEmptyFile exampleReadFileSync "/tmp/gh-review-1/7" "README.rst" = true
      ∧ readme exampleReadFileSync exampleLineCount "/tmp/gh-review-1/7" none
          ["README.rst", "README.txt"] = Except.ok (none, true)
      ∧ readme exampleReadFileSync exampleLineCount "/tmp/gh-review-1/7" none ["README.rst"]
          = Except.ok (none, false)
      ∧ readme exampleReadFileSync exampleLineCount "/tmp/gh-review-1/7" none
          (["README.rst", "README.md"] ++ "README" :: ["README.txt"])
          = Except.error "EISDIR: illegal operation on a directory, read" := by
  have h := readme_empty_match_is_skipped exampleReadFileSync exampleLineCount
    "/tmp/gh-review-1/7" none ["README.rst", "README.txt"]
    (fun f hf => exampleReadFileSync_readable f (by
      simp only [List.mem_cons, List.mem_singleton, List.not_mem_nil, or_false] at hf ⊢
      tauto))
  have h2 := readme_empty_match_is_skipped exampleReadFileSync exampleLineCount
    "/tmp/gh-review-1/7" none ["README.rst", "README.md"]
    (fun f hf => exampleReadFileSync_readable f (by
      simp only [List.mem_cons, List.mem_singleton, List.not_mem_nil, or_false] at hf ⊢
      tauto))
  refine ⟨rfl, ?_, rfl, ?_⟩
  · rw [h.1]
    rfl
  · exact h2.2.2 "README" ["README.txt"] "EISDIR: illegal operation on a directory, read"
      rfl rfl

/-- Counterexample to C5 as stated: `README` matches but cannot be read, `README.txt`
matches and has 11 lines; the probe does not answer `true`, the read error escapes. -/
theorem readme_unreadable_match_aborts :
    exampleReadFileSync ("/tmp/gh-review-1/7" ++ "/" ++ "README")
        = Except.error "EISDIR: illegal operation on a directory, read"
      ∧ moreThanTenLines exampleReadFileSync exampleLineCount "/tmp/gh-review-1/7" "README.txt"
          = true
      ∧ readme exampleReadFileSync exampleLineCount "/tmp/gh-review-1/7" none
          ["README", "README.txt"]
          = Except.error "EISDIR: illegal operation on a directory, read"
      ∧ readme exampleReadFileSync exampleLineCount "/tmp/gh-review-1/7" none
          ["README", "README.txt"] ≠ Except.ok (none, true)
      ∧ readme exampleReadFileSync exampleLineCount "/tmp/gh-review-1/7" none ["README"]
          ≠ Except.ok (none, false) := by
  refine ⟨rfl, rfl, rfl, ?_, ?_⟩
  · intro h
    have h2 : readme exampleReadFileSync exampleLineCount "/tmp/gh-review-1/7" none
        ["README", "README.txt"]
        = Except.error "EISDIR: illegal operation on a directory, read" := rfl
    rw [h2] at h
    cases h
  · intro h
    have h2 : readme exampleReadFileSync exampleLineCount "/tmp/gh-review-1/7" none ["README"]
        = Except.error "EISDIR: illegal operation on a directory, read" := rfl
    rw [h2] at h
    cases h

/-! ### Issue filing -/

theorem postIssue_eq (issues : List Issue) (repo : ProbedRepo) (title description : String) :
    postIssue issues repo title description
      = if (∃ issue ∈ issues, issue.title = title) then []
        else [{ title := title, body := description, user := repo.owner.login,
                repo := repo.name }] := by
  unfold postIssue
  rw [filterLimit_eq_filter]
  by_cases h : ∃ issue ∈ issues, issue.title = title
  · obtain ⟨issue, hmem, htitle⟩ := h
    have hne : issues.filter (fun issue => issue.title == title) ≠ [] := by
      intro hnil
      have : issue ∈ issues.filter (fun issue => issue.title == title) :=
        List.mem_filter.mpr ⟨hmem, by simp [htitle]⟩
      rw [hnil] at this
      cases this
    have hlen : (issues.filter (fun issue => issue.title == title)).length ≠ 0 := by
      intro h0
      exact hne (List.length_eq_zero.mp h0)
    have hex : ∃ issue ∈ issues, issue.title = title := ⟨issue, hmem, htitle⟩
    simp [hlen, hex]
  · have hnil : issues.filter (fun issue => issue.title == title) = [] := by
      apply List.filter_eq_nil_iff.mpr
      intro issue hmem hb
      exact h ⟨issue, hmem, by simpa using hb⟩
    rw [hnil]
    simp only [List.length_nil, beq_self_eq_true, if_true]
    rw [if_neg h]

theorem step_eq (issues : List Issue) (repo : ProbedRepo) (probe : Bool)
    (title description : String) :
    (if (!probe) = true then postIssue issues repo title description else [])
      = if probe = false ∧ ¬ ∃ issue ∈ issues, issue.title = title
        then [{ title := title, body := description, user := repo.owner.login,
                repo := repo.name }]
        else [] := by
  rw [postIssue_eq]
  cases probe
  · by_cases h : ∃ issue ∈ issues, issue.title = title
    · simp [h]
    · simp [h]
  · simp

theorem filter_title_same (issues : List Issue) (repo : ProbedRepo) (probe : Bool)
    (title description : String) :
    (if (!probe) = true then postIssue issues repo title description else []).filter
        (fun request => request.title == title)
      = if (!probe) = true then postIssue issues repo title description else [] := by
  rw [step_eq]
  by_cases h : probe = false ∧ ¬ ∃ issue ∈ issues, issue.title = title
  · rw [if_pos h]
    simp [List.filter_cons]
  · rw [if_neg h]
    rfl

theorem filter_title_other (issues : List Issue) (repo : ProbedRepo) (probe : Bool)
    (title description other : String) (hne : title ≠ other) :
    (if (!probe) = true then postIssue issues repo title description else []).filter
        (fun request => request.title == other) = [] := by
  rw [step_eq]
  by_cases h : probe = false ∧ ¬ ∃ issue ∈ issues, issue.title = title
  · rw [if_pos h]
    simp [List.filter_cons, hne]
  · rw [if_neg h]
    rfl

/-- C6. For each of the four artifact kinds, the issues created for a repository with the
kind's canonical title are: exactly one, carrying that title, the kind's fixed body and the
repository's owner and name, when the repository's probe for the kind is `false` and no
fetched issue has exactly that title; and none when a fetched issue has exactly that title
or the probe is `true`. -/
theorem issueSeries_creates_each_missing_once (issues : List Issue) (repo : ProbedRepo)
    (kind : Artifact) :
    (issueSeries issues repo).filter (fun request => request.title == canonicalTitle kind)
      = if probeOf repo kind = false ∧ ¬ ∃ issue ∈ issues, issue.title = canonicalTitle kind
        then [{ title := canonicalTitle kind, body := fixedBody kind,
                user := repo.owner.login, repo := repo.name }]
        else [] := by
  unfold issueSeries
  cases kind
  · simp only [canonicalTitle, fixedBody, probeOf, List.filter_append]
    rw [filter_title_same, filter_title_other _ _ _ _ _ _ (by decide),
      filter_title_other _ _ _ _ _ _ (by decide), filter_title_other _ _ _ _ _ _ (by decide),
      step_eq]
    simp
  · simp only [canonicalTitle, fixedBody, probeOf, List.filter_append]
    rw [filter_title_same, filter_title_other _ _ _ _ _ _ (by decide),
      filter_title_other _ _ _ _ _ _ (by decide), filter_title_other _ _ _ _ _ _ (by decide),
      step_eq]
    simp
  · simp only [canonicalTitle, fixedBody, probeOf, List.filter_append]
    rw [filter_title_same, filter_title_other _ _ _ _ _ _ (by decide),
      filter_title_other _ _ _ _ _ _ (by decide), filter_title_other _ _ _ _ _ _ (by decide),
      step_eq]
    simp
  · simp only [canonicalTitle, fixedBody, probeOf, List.filter_append]
    rw [filter_title_same, filter_title_other _ _ _ _ _ _ (by decide),
      filter_title_other _ _ _ _ _ _ (by decide), filter_title_other _ _ _ _ _ _ (by decide),
      step_eq]
    simp

/-! ### Cleanup -/

theorem readme_ok_er (readFileSync : String → Except Err String) (lineCount : String → Nat)
    (repoLocation : String) (er er1 : Option Err) (files : List String) (result : Bool)
    (h : readme readFileSync lineCount repoLocation er files = Except.ok (er1, result)) :
    er1 = er := by
  unfold readme at h
  by_cases hlen : files.length > 0
  · rw [if_pos hlen] at h
    cases hs : someLimit files ASYNC_LIMIT (readmeIterator readFileSync lineCount repoLocation) with
    | error e => rw [hs] at h; cases h
    | ok r =>
      rw [hs] at h
      simp only [Except.ok.injEq, Prod.mk.injEq] at h
      exact h.1.symm
  · rw [if_neg hlen] at h
    simp only [Except.ok.injEq, Prod.mk.injEq] at h
    exact h.1.symm

theorem probes_er_none (readFileSync : String → Except Err String) (lineCount : String → Nat)
    (repoLocation : String) (globs : Globs) (er : Option Err) (status : Status)
    (h : probes readFileSync lineCount repoLocation globs = Except.ok (er, status)) :
    er = none := by
  obtain ⟨r, l, c, t⟩ := globs
  unfold probes at h
  cases r with
  | failed e => simp [readmeTask] at h
  | matched files =>
    simp only [readmeTask] at h
    cases hr : readme readFileSync lineCount repoLocation none files with
    | error e => rw [hr] at h; cases h
    | ok pair =>
      obtain ⟨er1, readmeResult⟩ := pair
      have h1 : er1 = none :=
        readme_ok_er readFileSync lineCount repoLocation none er1 files readmeResult hr
      subst h1
      rw [hr] at h
      cases l with
      | failed e => simp [existsProbe] at h
      | matched lf =>
        cases c with
        | failed e => simp [existsProbe] at h
        | matched cf =>
          cases t with
          | failed e => simp [existsProbe] at h
          | matched tf =>
            simp only [existsProbe, firstError, Except.ok.injEq, Prod.mk.injEq] at h
            exact h.1.symm

theorem fanOut_clean (tmp : String) (readFileSync : String → Except Err String)
    (lineCount : String → Nat) (globsOf : Repo → Globs) (repos : List Repo)
    (h : ∀ repo ∈ repos, ∃ status,
      probes readFileSync lineCount (tmp ++ "/" ++ toString repo.id) (globsOf repo)
        = Except.ok (none, status)) :
    ∃ probed, fanOut tmp readFileSync lineCount globsOf repos = ([], some probed) := by
  induction repos with
  | nil => exact ⟨[], rfl⟩
  | cons repo rest ih =>
    obtain ⟨status, hs⟩ := h repo (List.mem_cons_self _ _)
    obtain ⟨probed, hp⟩ := ih (fun r hr => h r (List.mem_cons_of_mem _ hr))
    refine ⟨{ toRepo := repo, toStatus := status,
              checkout_location := tmp ++ "/" ++ toString repo.id } :: probed, ?_⟩
    simp only [fanOut, hs, hp]

theorem fanOut_failed (tmp : String) (readFileSync : String → Except Err String)
    (lineCount : String → Nat) (globsOf : Repo → Globs) (repos : List Repo)
    (h : ∃ repo ∈ repos, ¬ ∃ status,
      probes readFileSync lineCount (tmp ++ "/" ++ toString repo.id) (globsOf repo)
        = Except.ok (none, status)) :
    ∃ e, fanOut tmp readFileSync lineCount globsOf repos
          = ([Event.uncaughtException e], none) := by
  induction repos with
  | nil =>
    obtain ⟨repo, hmem, _⟩ := h
    cases hmem
  | cons repo rest ih =>
    cases hp : probes readFileSync lineCount (tmp ++ "/" ++ toString repo.id) (globsOf repo) with
    | error e => exact ⟨e, by simp only [fanOut, hp]⟩
    | ok result =>
      obtain ⟨er, status⟩ := result
      have her : er = none := probes_er_none readFileSync lineCount _ _ er status hp
      subst her
      have hrest : ∃ r ∈ rest, ¬ ∃ status,
          probes readFileSync lineCount (tmp ++ "/" ++ toString r.id) (globsOf r)
            = Except.ok (none, status) := by
        obtain ⟨r, hmem, hr⟩ := h
        rcases List.mem_cons.mp hmem with rfl | hmem
        · exact absurd ⟨status, hp⟩ hr
        · exact ⟨r, hmem, hr⟩
      obtain ⟨e, he⟩ := ih hrest
      exact ⟨e, by simp only [fanOut, hp, he]⟩

theorem probeFails_eq_false_iff (pid : Nat) (readFileSync : String → Except Err String)
    (lineCount : String → Nat) (globsOf : Repo → Globs) (repo : Repo) :
    probeFails pid readFileSync lineCount globsOf repo = false
      ↔ ∃ status, probes readFileSync lineCount
          (tmpDirectory pid ++ "/" ++ toString repo.id) (globsOf repo)
            = Except.ok (none, status) := by
  unfold probeFails
  cases hp : probes readFileSync lineCount (tmpDirectory pid ++ "/" ++ toString repo.id)
      (globsOf repo) with
  | error e => simp
  | ok result =>
    obtain ⟨er, status⟩ := result
    cases er with
    | some e => simp
    | none => simp

/-- C9, as the code has it.  In a run that gets past listing: if the probes of some
repository fail, which happens when an exception escapes from them (a match of `README*`
that cannot be read, or a failed `glob`, after which reading `files.length` throws), the
run consists of that uncaught exception and the removal of the temporary directory is
never issued; if no probe fails, the removal is the first effect, issued before the table
is printed.  The guard of the final callback of the fan-out, which writes an error it is
handed and exits with status 1, stands before the removal as well. -/
theorem remove_issued_only_without_failure (program : Program) (colorsEnabled : Bool)
    (pid : Nat) (readFileSync : String → Except Err String) (lineCount : String → Nat)
    (globsOf : Repo → Globs) (issuesOf : ProbedRepo → List Issue) (repos : List Repo) :
    (if (filterRepos program repos).any (probeFails pid readFileSync lineCount globsOf) = true
     then
      Event.remove (tmpDirectory pid)
          ∉ afterListing program colorsEnabled pid readFileSync lineCount globsOf issuesOf
              none repos
        ∧ ∃ e,
            afterListing program colorsEnabled pid readFileSync lineCount globsOf issuesOf
                none repos = [Event.uncaughtException e]
     else
      ∃ (rows : List (List Cell)) (requests : List IssueRequest),
        afterListing program colorsEnabled pid readFileSync lineCount globsOf issuesOf
            none repos
          = Event.remove (tmpDirectory pid) :: Event.table tableHead rows
              :: requests.map Event.createIssue)
      ∧ ∀ (e : Err) (probed : List ProbedRepo),
          joinCallback program colorsEnabled (tmpDirectory pid) issuesOf (some e) probed
            = [Event.consoleError e, Event.exit 1] := by
  refine ⟨?_, fun e probed => rfl⟩
  split
  next hfail =>
    obtain ⟨repo, hmem, hrepo⟩ := List.any_eq_true.mp hfail
    have hne : ¬ ∃ status, probes readFileSync lineCount
        (tmpDirectory pid ++ "/" ++ toString repo.id) (globsOf repo)
          = Except.ok (none, status) := by
      intro hex
      rw [(probeFails_eq_false_iff pid readFileSync lineCount globsOf repo).mpr hex] at hrepo
      cases hrepo
    obtain ⟨e, he⟩ := fanOut_failed (tmpDirectory pid) readFileSync lineCount globsOf
      (filterRepos program repos) ⟨repo, hmem, hne⟩
    have ht : afterListing program colorsEnabled pid readFileSync lineCount globsOf issuesOf
        none repos = [Event.uncaughtException e] := by
      simp only [afterListing, he]
    rw [ht]
    exact ⟨by simp, e, rfl⟩
  next hclean =>
    have hall : ∀ repo ∈ filterRepos program repos, ∃ status,
        probes readFileSync lineCount (tmpDirectory pid ++ "/" ++ toString repo.id)
          (globsOf repo) = Except.ok (none, status) := by
      intro repo hmem
      apply (probeFails_eq_false_iff pid readFileSync lineCount globsOf repo).mp
      cases hf : probeFails pid readFileSync lineCount globsOf repo
      · rfl
      · exact absurd (List.any_eq_true.mpr ⟨repo, hmem, hf⟩) hclean
    obtain ⟨probed, hp⟩ := fanOut_clean (tmpDirectory pid) readFileSync lineCount globsOf
      (filterRepos program repos) hall
    refine ⟨reportRows colorsEnabled probed,
      if program.createIssues then issueFiler issuesOf probed else [], ?_⟩
    simp only [afterListing, hp, joinCallback]
    cases program.createIssues <;> simp

/-- Witness for C9 as the code has it: one repository whose checkout has an empty
`README.rst`, an 11-line `README.txt`, a `LICENSE` and a `.travis.yml`; no probe fails, and
the run is the removal followed by the table with the one row of score 3. -/
theorem remove_issued_only_without_failure_witness :
    (filterRepos exampleProgram [exampleRepo 7 "tool"]).any
        (probeFails 1 exampleReadFileSync exampleLineCount exampleGlobs) = false
      ∧ (∃ (rows : List (List Cell)) (requests : List IssueRequest),
          afterListing exampleProgram false 1 exampleReadFileSync exampleLineCount exampleGlobs
              (fun _ => []) none [exampleRepo 7 "tool"]
            = Event.remove (tmpDirectory 1) :: Event.table tableHead rows
                :: requests.map Event.createIssue)
      ∧ afterListing exampleProgram false 1 exampleReadFileSync exampleLineCount exampleGlobs
            (fun _ => []) none [exampleRepo 7 "tool"]
          = [Event.remove "/tmp/gh-review-1",
             Event.table tableHead
               [[Cell.text "acme/tool", Cell.text "public", Cell.text "✓", Cell.text "✓",
                 Cell.text "✗", Cell.text "✓", Cell.number 3]]] := by
  have hclean : (filterRepos exampleProgram [exampleRepo 7 "tool"]).any
      (probeFails 1 exampleReadFileSync exampleLineCount exampleGlobs) = false := rfl
  have h := (remove_issued_only_without_failure exampleProgram false 1 exampleReadFileSync
    exampleLineCount exampleGlobs (fun _ => []) [exampleRepo 7 "tool"]).1
  rw [hclean] at h
  exact ⟨hclean, h, rfl⟩

/-- Counterexample to C9 as stated: one repository is listed, and the only match of
`README*` in its checkout is the directory `README`.  Reading it throws, nothing catches
the exception, and the run past listing consists of that uncaught exception: the removal of
the temporary directory is not among its effects. -/
theorem no_remove_on_unreadable_readme :
    afterListing exampleProgram false 1 exampleReadFileSync exampleLineCount
        exampleGlobsReadmeDirectory (fun _ => []) none [exampleRepo 7 "tool"]
        = [Event.uncaughtException "EISDIR: illegal operation on a directory, read"]
      ∧ Event.remove (tmpDirectory 1)
          ∉ afterListing exampleProgram false 1 exampleReadFileSync exampleLineCount
              exampleGlobsReadmeDirectory (fun _ => []) none [exampleRepo 7 "tool"] := by
  have h : afterListing exampleProgram false 1 exampleReadFileSync exampleLineCount
      exampleGlobsReadmeDirectory (fun _ => []) none [exampleRepo 7 "tool"]
      = [Event.uncaughtException "EISDIR: illegal operation on a directory, read"] := rfl
  refine ⟨h, ?_⟩
  rw [h]
  simp

/-! ### Credentials -/

/-- C8 fails on the code.  With an OAuth token, a user name and a password all given, the
validation passes, the object `auth` is the basic one, and the clone credential callback
hands out the OAuth token. -/
theorem credentials_mode_differs_from_auth_mode :
    usageViolation exampleProgramAllCredentials = false
      ∧ auth exampleProgramAllCredentials = Auth.basic "octocat" "hunter2"
      ∧ credentials exampleProgramAllCredentials "https://github.com/acme/tool.git" "git"
          = Cred.userpassPlaintextNew "git" (some "0a1b2c3d") := by
  decide

theorem credentials_mode_agrees_unless_all_given (program : Program) (url userName : String)
    (hvalid : usageViolation program = false)
    (hnot : ¬ (truthy program.oauth = true ∧ truthy program.username = true)) :
    (auth program = Auth.empty
        ∧ credentials program url userName = Cred.sshKeyFromAgent userName)
      ∨ (∃ token, program.oauth = some token ∧ auth program = Auth.oauth token
          ∧ credentials program url userName = Cred.userpassPlaintextNew userName (some token))
      ∨ (∃ u p, program.username = some u ∧ program.password = some p
          ∧ auth program = Auth.basic u p
          ∧ credentials program url userName = Cred.userpassPlaintextNew u (some p)) := by
  obtain ⟨username, password, oauth, createIssues, publicOnly, args⟩ := program
  unfold usageViolation at hvalid
  simp only [Bool.or_eq_false_iff, Bool.and_eq_false_iff] at hvalid
  obtain ⟨⟨⟨h1, h2⟩, _⟩, _⟩ := hvalid
  simp only at h1 h2 hnot
  cases ho : truthy oauth
  · cases hu : truthy username
    · left
      simp [auth, credentials, ho, hu]
    · have hp : truthy password = true := by
        rcases h2 with h2 | h2
        · rw [hu] at h2; cases h2
        · simpa using h2
      right; right
      cases username with
      | none => simp [truthy] at hu
      | some u =>
        cases password with
        | none => simp [truthy] at hp
        | some p =>
          exact ⟨u, p, rfl, rfl, by simp [auth, credentials, ho, hu, hp]⟩
  · have hu : truthy username = false := by
      cases hu : truthy username
      · rfl
      · exact absurd ⟨ho, hu⟩ hnot
    right; left
    cases oauth with
    | none => simp [truthy] at ho
    | some token =>
      exact ⟨token, rfl, by simp [auth, credentials, ho, hu]⟩

/-! ### The report -/

/-- C10. The rows of the report are the scored repositories in the order of the sort, by
score and then by full name, each row being the full name, `private` or `public`, the four
presence glyphs and the score; a glyph shows the check mark exactly when its probe is
`true` and the cross otherwise, with or without colour; and three repositories with no
artifact, all four, and README and LICENSE only come out in the order of the scores 0, 2,
4. -/
theorem reportRows_are_sorted_rendered_rows (colorsEnabled : Bool) (repos : List ProbedRepo) :
    reportRows colorsEnabled repos
        = (sortRepos (repos.map calculateScore)).map (specRow colorsEnabled)
      ∧ (sortRepos (repos.map calculateScore)).Perm (repos.map calculateScore)
      ∧ (sortRepos (repos.map calculateScore)).Pairwise scoreNameLe
      ∧ (∀ present : Bool,
          shownGlyph (if present then green colorsEnabled "✓" else red colorsEnabled "✗")
            = if present then "✓" else "✗")
      ∧ reportRows false
          [exampleProbed 1 "none" false false false false,
           exampleProbed 2 "full" true true true true,
           exampleProbed 3 "half" true true false false]
        = [[Cell.text "acme/none", Cell.text "public", Cell.text "✗", Cell.text "✗",
            Cell.text "✗", Cell.text "✗", Cell.number 0],
           [Cell.text "acme/half", Cell.text "public", Cell.text "✓", Cell.text "✓",
            Cell.text "✗", Cell.text "✗", Cell.number 2],
           [Cell.text "acme/full", Cell.text "public", Cell.text "✓", Cell.text "✓",
            Cell.text "✓", Cell.text "✓", Cell.number 4]] := by
  refine ⟨?_, arraySort_perm compareRepos _, sortRepos_pairwise _, ?_, ?_⟩
  · unfold reportRows
    simp only [mapLimit_eq_map, List.map_map]
    apply List.map_congr_left
    intro repo _
    rfl
  · intro present
    cases present <;> cases colorsEnabled <;> rfl
  · rfl

/-- C1. `calculateScore` sets `score` to the number of the four probe fields that are
`true`, a natural number between 0 and 4, and leaves the rest of the record as it was. -/
theorem calculateScore_counts_true_probes (repo : ProbedRepo) :
    (calculateScore repo).score
        = List.count true [repo.readme, repo.license, repo.contributing, repo.travis]
      ∧ 0 ≤ (calculateScore repo).score ∧ (calculateScore repo).score ≤ 4
      ∧ (calculateScore repo).toProbedRepo = repo := by
  cases hr : repo.readme <;> cases hl : repo.license <;> cases hc : repo.contributing <;>
    cases ht : repo.travis <;> simp [calculateScore, toNumber, hr, hl, hc, ht]

/-- C3. With `publicOnly` set the filter step returns exactly the repositories whose
`private` field is `false`, in their original order, as a subsequence of the input;
with `publicOnly` not set it returns the input unchanged. -/
theorem filterRepos_publicOnly (program : Program) (repos : List Repo) :
    filterRepos { program with publicOnly := true } repos
        = repos.filter (fun repo => repo.«private» = false)
      ∧ (filterRepos { program with publicOnly := true } repos).Sublist repos
      ∧ (∀ repo, repo ∈ filterRepos { program with publicOnly := true } repos
            ↔ repo ∈ repos ∧ repo.«private» = false)
      ∧ filterRepos { program with publicOnly := false } repos = repos := by
  have hf : filterRepos { program with publicOnly := true } repos
      = repos.filter (fun repo => repo.«private» = false) := by
    unfold filterRepos
    rw [filterLimit_eq_filter]
    apply List.filter_congr
    intro x _
    cases hx : x.«private» <;> simp [hx]
  refine ⟨hf, ?_, ?_, ?_⟩
  · rw [hf]
    exact List.filter_sublist _
  · intro repo
    rw [hf]
    simp [List.mem_filter]
  · unfold filterRepos
    rw [filterLimit_eq_filter]
    simp

/-- C7. The help exit is taken exactly when one of `username` and `password` is set
without the other, or the number of positional arguments is not 1, or `createIssues`
is set while neither both `username` and `password` nor `oauth` is set.  An option is
set when its value is truthy. -/
theorem usageViolation_iff (program : Program) :
    usageViolation program = true ↔
      (List.count true [truthy program.username, truthy program.password] = 1
        ∨ program.args.length ≠ 1
        ∨ (program.createIssues = true
            ∧ ¬ ((truthy program.username = true ∧ truthy program.password = true)
                  ∨ truthy program.oauth = true))) := by
  unfold usageViolation
  cases truthy program.username <;> cases truthy program.password <;>
    cases truthy program.oauth <;> cases program.createIssues <;> simp

end GhReview
